import Mathlib

/-!
Shallow embedding of the easyila Model/Instance IR (src/easyila/model.py) and
the Guidance annotation store (src/easyila/guidance.py), together with proofs
about validation, case splitting, uclid emission and structural equality.

The symbolic expression library easyila.lynth.smt is repository code that is
not among the provided source files; its types are modelled from the contract
in section 6 of the design document.
-/

namespace Easyila

/-- Modelled from the spec: smt.Sort of easyila.lynth.smt (not under src/) —
tagged variant of Bool, BitVector(width) and Array(indexSort, elementSort),
immutable and compared structurally. -/
inductive SmtSort where
  | bool
  | bitvec (width : Nat)
  | array (idx elem : SmtSort)
deriving DecidableEq

/-- Modelled from the spec: smt.Variable — a (name, sort) pair. -/
structure SmtVariable where
  name : String
  sort : SmtSort
deriving DecidableEq

/-- Modelled from the spec: smt.Term of easyila.lynth.smt (not under src/) — a
symbolic expression: variable reference, constant, operator application,
uninterpreted-function application, conditional, and the value-keyed match
construct used by Model.case_split (smt match_const). -/
inductive Term where
  | var (v : SmtVariable)
  | boolConst (b : Bool)
  | bvConst (val width : Nat)
  | app (op : String) (sort : SmtSort) (args : List Term)
  | applyUF (name : String) (sort : SmtSort) (args : List Term)
  | ite (cond tt ff : Term)
  | matchConst (scrut : Term) (arms : List (Nat × Term))

mutual

/-- Modelled from the spec: structural equality on smt.Term (section 6:
terms are compared structurally). -/
def Term.beq : Term → Term → Bool
  | .var v1, .var v2 => decide (v1 = v2)
  | .boolConst b1, .boolConst b2 => decide (b1 = b2)
  | .bvConst v1 w1, .bvConst v2 w2 => decide (v1 = v2) && decide (w1 = w2)
  | .app o1 s1 a1, .app o2 s2 a2 =>
      decide (o1 = o2) && decide (s1 = s2) && termListBeq a1 a2
  | .applyUF n1 s1 a1, .applyUF n2 s2 a2 =>
      decide (n1 = n2) && decide (s1 = s2) && termListBeq a1 a2
  | .ite c1 t1 f1, .ite c2 t2 f2 =>
      Term.beq c1 c2 && Term.beq t1 t2 && Term.beq f1 f2
  | .matchConst s1 a1, .matchConst s2 a2 => Term.beq s1 s2 && armListBeq a1 a2
  | _, _ => false

/-- Elementwise structural equality of term lists. -/
def termListBeq : List Term → List Term → Bool
  | [], [] => true
  | t1 :: r1, t2 :: r2 => Term.beq t1 t2 && termListBeq r1 r2
  | _, _ => false

/-- Elementwise structural equality of match arms. -/
def armListBeq : List (Nat × Term) → List (Nat × Term) → Bool
  | [], [] => true
  | (n1, t1) :: r1, (n2, t2) :: r2 =>
      decide (n1 = n2) && Term.beq t1 t2 && armListBeq r1 r2
  | _, _ => false

end

/-- Python exceptions raised by the embedded code. -/
inductive PyErr where
  | exc (msg : String)
  | typeError (msg : String)
  | keyError (msg : String)
  | nameError (msg : String)
  | attributeError (msg : String)
  | indexError (msg : String)
deriving DecidableEq

/-- UFPlaceholder (model.py lines 25-46): name, sort, ordered parameter
list and the free-argument flag. -/
structure UFPlaceholder where
  name : String
  sort : SmtSort
  params : List SmtVariable
  free_arg : Bool
deriving DecidableEq

/-- GeneratedBy (model.py lines 17-22) is an enum.IntFlag; we model its values
as the bitmask naturals auto-assigned by enum.auto. -/
def GeneratedBy.VERILOG_PARSE : Nat := 1

/-- GeneratedBy.MANUAL, the default provenance tag of a Model. -/
def GeneratedBy.MANUAL : Nat := 2

/-- GeneratedBy.SYGUS2. -/
def GeneratedBy.SYGUS2 : Nat := 4

/-- GeneratedBy.CASE_SPLIT, or-ed into the tag by `_do_case_split`. -/
def GeneratedBy.CASE_SPLIT : Nat := 8

mutual

/-- Model (model.py lines 49-87): a named module with typed ports, state, UF
placeholders, named instances, same-cycle logic, a transition map list
(`default_next`), init values, assertions, assumptions and a provenance tag.
Python dicts are modelled as insertion-ordered association lists. -/
inductive Model where
  | mk (name : String)
       (inputs outputs state : List SmtVariable)
       (ufs next_ufs : List UFPlaceholder)
       (instances : List (String × Instance))
       (logic : List (Term × Term))
       (default_next : List (List (Term × Term)))
       (init_values : List (String × Term))
       (assertions assumptions : List Term)
       (generated_by : Nat)

/-- Instance (model.py lines 480-495): a Model together with input bindings
mapping the child's declared input variables to parent-scope terms. -/
inductive Instance where
  | mk (model : Model) (inputs : List (SmtVariable × Term))

end

/-- Projection: Model.name. -/
def Model.name : Model → String
  | .mk n _ _ _ _ _ _ _ _ _ _ _ _ => n

/-- Projection: Model.inputs. -/
def Model.inputs : Model → List SmtVariable
  | .mk _ i _ _ _ _ _ _ _ _ _ _ _ => i

/-- Projection: Model.outputs. -/
def Model.outputs : Model → List SmtVariable
  | .mk _ _ o _ _ _ _ _ _ _ _ _ _ => o

/-- Projection: Model.state. -/
def Model.state : Model → List SmtVariable
  | .mk _ _ _ s _ _ _ _ _ _ _ _ _ => s

/-- Projection: Model.ufs. -/
def Model.ufs : Model → List UFPlaceholder
  | .mk _ _ _ _ u _ _ _ _ _ _ _ _ => u

/-- Projection: Model.next_ufs. -/
def Model.next_ufs : Model → List UFPlaceholder
  | .mk _ _ _ _ _ nu _ _ _ _ _ _ _ => nu

/-- Projection: Model.instances. -/
def Model.instances : Model → List (String × Instance)
  | .mk _ _ _ _ _ _ insts _ _ _ _ _ _ => insts

/-- Projection: Model.logic. -/
def Model.logic : Model → List (Term × Term)
  | .mk _ _ _ _ _ _ _ lg _ _ _ _ _ => lg

/-- Projection: Model.default_next. -/
def Model.default_next : Model → List (List (Term × Term))
  | .mk _ _ _ _ _ _ _ _ dn _ _ _ _ => dn

/-- Projection: Model.init_values. -/
def Model.init_values : Model → List (String × Term)
  | .mk _ _ _ _ _ _ _ _ _ iv _ _ _ => iv

/-- Projection: Model.assertions. -/
def Model.assertions : Model → List Term
  | .mk _ _ _ _ _ _ _ _ _ _ asrt _ _ => asrt

/-- Projection: Model.assumptions. -/
def Model.assumptions : Model → List Term
  | .mk _ _ _ _ _ _ _ _ _ _ _ assm _ => assm

/-- Projection: Model.generated_by. -/
def Model.generated_by : Model → Nat
  | .mk _ _ _ _ _ _ _ _ _ _ _ _ g => g

/-- Projection: Instance.model. -/
def Instance.model : Instance → Model
  | .mk m _ => m

/-- Projection: Instance.inputs (the input bindings of the instance). -/
def Instance.inputs : Instance → List (SmtVariable × Term)
  | .mk _ b => b

/-- Modelled from the spec: every smt.Term exposes its Sort (section 6). -/
def Term.sort : Term → SmtSort
  | .var v => v.sort
  | .boolConst _ => .bool
  | .bvConst _ w => .bitvec w
  | .app _ s _ => s
  | .applyUF _ s _ => s
  | .ite _ t _ => t.sort
  | .matchConst _ arms =>
      match arms with
      | [] => .bool
      | (_, t) :: _ => t.sort

mutual

/-- Modelled from the spec: smt typecheck (section 6c) — whether a term's
declared sort is consistent with its subterms. -/
def Term.typecheck : Term → Bool
  | .var _ => true
  | .boolConst _ => true
  | .bvConst _ _ => true
  | .app _ _ args => termListCheck args
  | .applyUF _ _ args => termListCheck args
  | .ite c t f =>
      Term.typecheck c && Term.typecheck t && Term.typecheck f &&
        decide (c.sort = .bool) && decide (t.sort = f.sort)
  | .matchConst s arms => Term.typecheck s && armListCheck arms

/-- Typecheck every term of a list. -/
def termListCheck : List Term → Bool
  | [] => true
  | t :: rest => Term.typecheck t && termListCheck rest

/-- Typecheck every match arm of a list. -/
def armListCheck : List (Nat × Term) → Bool
  | [] => true
  | (_, t) :: rest => Term.typecheck t && armListCheck rest

end

mutual

/-- Modelled from the spec: smt replace_vars (section 6d) — returns a new
term with every matching variable reference substituted, recursively. -/
def Term.replace_vars (subst : List (SmtVariable × Term)) : Term → Term
  | .var v =>
      match subst.find? (fun p => p.1 == v) with
      | some p => p.2
      | none => .var v
  | .boolConst b => .boolConst b
  | .bvConst v w => .bvConst v w
  | .app o s args => .app o s (replaceVarsList subst args)
  | .applyUF n s args => .applyUF n s (replaceVarsList subst args)
  | .ite c t f =>
      .ite (Term.replace_vars subst c) (Term.replace_vars subst t)
        (Term.replace_vars subst f)
  | .matchConst s arms =>
      .matchConst (Term.replace_vars subst s) (replaceVarsArms subst arms)

/-- Substitution mapped over a term list. -/
def replaceVarsList (subst : List (SmtVariable × Term)) : List Term → List Term
  | [] => []
  | t :: rest => Term.replace_vars subst t :: replaceVarsList subst rest

/-- Substitution mapped over match arms. -/
def replaceVarsArms (subst : List (SmtVariable × Term)) :
    List (Nat × Term) → List (Nat × Term)
  | [] => []
  | (n, t) :: rest => (n, Term.replace_vars subst t) :: replaceVarsArms subst rest

end

/-- Python set(l): deduplicated elements (we keep first occurrences; Python
set iteration order is unspecified, and validate only consults membership
and produces one diagnostic per distinct element). -/
def listToSet [DecidableEq α] (l : List α) : List α :=
  l.foldl (fun acc x => if x ∈ acc then acc else acc ++ [x]) []

/-- One step of get_var_counts: bump the count of a name, preserving
first-touch insertion order as a Python defaultdict does. -/
def countsIncr : List (String × Nat) → String → List (String × Nat)
  | [], s => [(s, 1)]
  | (k, c) :: rest, s =>
      if k = s then (k, c + 1) :: rest else (k, c) :: countsIncr rest s

/-- get_var_counts (model.py lines 119-123): maps variable name to number of
appearances, in first-appearance order. -/
def get_var_counts (names : List String) : List (String × Nat) :=
  names.foldl countsIncr []

/-- Python equality between a str and an smt.Term: a string never equals a
Term value (dataclass eq across classes yields NotImplemented, falling back
to identity, hence False). Model.validate tests `v.name in self.logic`
(model.py lines 181 and 192) where the logic dict is keyed by Terms, so that
membership test never succeeds; this definition records that fact. -/
def pyStrEqTerm (_s : String) (_t : Term) : Bool := false

/-- Whether a sort is an ArraySort (isinstance check, model.py line 186). -/
def SmtSort.isArraySort : SmtSort → Bool
  | .array _ _ => true
  | _ => false

/-- Whether a Term is an smt.Variable (isinstance checks on logic keys,
model.py lines 174 and 177). -/
def Term.isVariableTerm : Term → Bool
  | .var _ => true
  | _ => false

/-- Python `"." in s`: whether a name contains a dot (validate's qualified
name checks). Stated over the underlying character list. -/
def hasDot (s : String) : Bool := s.data.contains '.'

/-- Rendering of a Term inside a diagnostic message: smt str rendering lives
in the external library; variables render as their name, which is all the
validate messages exercised here contain. -/
def termStr : Term → String
  | .var v => v.name
  | .boolConst b => if b then "true" else "false"
  | .bvConst v w => toString v ++ "bv" ++ toString w
  | _ => "term"

/-- Names of the Variable keys of a Term-keyed dict (the set comprehensions
of model.py lines 174-179). -/
def varKeyNames (d : List (Term × Term)) : List String :=
  d.filterMap (fun kv =>
    match kv.1 with
    | .var v => some v.name
    | _ => none)

mutual

/-- Model.validate (model.py lines 108-206), as the ordered list of collected
diagnostics (the `errs` list): the zeroth pass recursively validates every
instance and its port bindings, the first pass checks name collisions, the
second pass checks logic/transition coverage, and the final pass typechecks
all logic and transition expressions. The function never raises. -/
def Model.validateErrs : Model → List String
  | .mk _ inputs outputs state ufs _ insts logic dnext _ _ _ _ =>
      let in_counts := get_var_counts (inputs.map (·.name))
      let out_counts := get_var_counts (outputs.map (·.name))
      let state_counts := get_var_counts (state.map (·.name))
      let uf_counts := get_var_counts (ufs.map (·.name))
      let logic_and_next :=
        varKeyNames logic ++ (dnext.map varKeyNames).flatten
      let next_keys := (dnext.map varKeyNames).flatten
      let instErrs := validateInstErrs insts
      let inLoop := (in_counts.map (fun sc =>
        (if hasDot sc.1 then
          ["input " ++ sc.1 ++ " cannot have . in its name"] else []) ++
        (if sc.2 > 1 then
          ["input " ++ sc.1 ++ " was declared multiple times"] else []) ++
        (if (out_counts.map Prod.fst).contains sc.1 then
          ["input " ++ sc.1 ++ " was also declared as an output"] else []) ++
        (if (state_counts.map Prod.fst).contains sc.1 then
          ["input " ++ sc.1 ++ " was also declared as a state variable"] else []) ++
        (if (uf_counts.map Prod.fst).contains sc.1 then
          ["input " ++ sc.1 ++ " was also declared as an uninterpreted function"]
         else []))).flatten
      let outLoop := (out_counts.map (fun sc =>
        (if hasDot sc.1 then
          ["output " ++ sc.1 ++ " cannot have . in its name"] else []) ++
        (if sc.2 > 1 then
          ["output " ++ sc.1 ++ " was declared multiple times"] else []) ++
        (if (state_counts.map Prod.fst).contains sc.1 then
          ["output " ++ sc.1 ++ " was also declared as a state variable"]
         else []))).flatten
      let stateLoop := (state_counts.map (fun sc =>
        (if hasDot sc.1 then
          ["state variable " ++ sc.1 ++ " cannot have . in its name"] else []) ++
        (if sc.2 > 1 then
          ["state variable " ++ sc.1 ++ " was declared multiple times"] else []) ++
        (if (uf_counts.map Prod.fst).contains sc.1 then
          ["output " ++ sc.1 ++ " was also declared as an uninterpreted function"]
         else []))).flatten
      let ufLoop := (uf_counts.map (fun sc =>
        (if hasDot sc.1 then
          ["uninterpreted function " ++ sc.1 ++ " cannot have . in its name"]
         else []) ++
        (if sc.2 > 1 then
          ["uninterpreted function " ++ sc.1 ++ " was declared multiple times"]
         else []))).flatten
      let secondPass :=
        (inputs.map (fun v =>
          (if logic.any (fun kv => pyStrEqTerm v.name kv.1) then
            ["input variable " ++ v.name ++ " has illegal declared logic"]
           else []) ++
          (if next_keys.contains v.name then
            ["input variable " ++ v.name ++
              " has illegal declared transition relation"]
           else []))).flatten ++
        (state.map (fun v =>
          if !v.sort.isArraySort && !logic_and_next.contains v.name then
            ["state variable " ++ v.name ++
              " has no declared logic or transition relation"]
          else [])).flatten ++
        (outputs.map (fun v =>
          if !logic_and_next.contains v.name &&
              !(uf_counts.map Prod.fst).contains v.name then
            ["output variable " ++ v.name ++
              " has no declared logic or transition relation"]
          else [])).flatten ++
        (ufs.map (fun u =>
          (if logic.any (fun kv => pyStrEqTerm u.name kv.1) then
            ["uninterpreted function " ++ u.name ++
              " has illegal declared logic"]
           else []) ++
          (if next_keys.contains u.name then
            ["uninterpreted function " ++ u.name ++
              " has illegal declared transition relation"]
           else []))).flatten
      let typeErrs :=
        (logic.map (fun kv =>
          if !kv.2.typecheck then
            ["type error in logic for " ++ termStr kv.1 ++
              " (see above output)"]
          else [])).flatten ++
        (dnext.map (fun d => (d.map (fun kv =>
          if !kv.2.typecheck then
            ["type error in transition logic for " ++ termStr kv.1 ++
              " (see above output)"]
          else [])).flatten)).flatten
      instErrs ++ inLoop ++ outLoop ++ stateLoop ++ ufLoop ++ secondPass ++
        typeErrs

/-- The zeroth validation pass (model.py lines 128-136): recursively validate
every instance, then report missing and extra input bindings. -/
def validateInstErrs : List (String × Instance) → List String
  | [] => []
  | (subname, .mk submodel subinputs) :: rest =>
      let subErrs :=
        if Model.validateErrs submodel = [] then []
        else ["validation error(s) in submodule " ++ subname ++
          " (see above output)"]
      let needed := submodel.inputs
      let bound := subinputs.map Prod.fst
      let missing := ((listToSet needed).filter
        (fun v => !bound.contains v)).map (fun v =>
          "instance " ++ subname ++ " is missing binding for input " ++ v.name)
      let extra := ((listToSet bound).filter
        (fun v => !needed.contains v)).map (fun v =>
          "instance " ++ subname ++ " has binding for unknown input " ++ v.name)
      subErrs ++ missing ++ extra ++ validateInstErrs rest

end

/-- Model.validate's return value: `len(errs) == 0` (model.py line 206). -/
def Model.validate (m : Model) : Bool :=
  (Model.validateErrs m).length == 0

/-- The Python value returned by Model.validate. The source returns the bare
bool of line 206; the type can also represent the (bool, diagnostics) pair the
design document claims, so that claim is expressible in the embedding. -/
inductive PyRet where
  | bool (b : Bool)
  | pair (b : Bool) (diags : List String)
deriving DecidableEq

/-- Whether a returned Python value is a pair. -/
def PyRet.isPair : PyRet → Bool
  | .pair _ _ => true
  | _ => false

/-- Model.validate's result as a Python value: the source ends with
`return len(errs) == 0`, a bare boolean. -/
def Model.validateRet (m : Model) : PyRet :=
  .bool (Model.validate m)

/-- The possible_values argument of case_split: either the literal
(True, False) tuple — compared against verbatim at model.py line 412 — or a
collection of candidate integers. -/
inductive PyVals where
  | tupleTF
  | intList (ns : List Nat)
deriving DecidableEq

/-- Modelled from the spec: the Python attribute access `sort.bitwidth`.
BVSort carries its width (section 3: BitVector(width)); BoolSort and
ArraySort declare no such attribute, so the access raises AttributeError. -/
def SmtSort.bitwidthAttr : SmtSort → Option Nat
  | .bitvec w => some w
  | _ => none

/-- Fixed-width binary digits of n, most significant first. -/
def binDigits : Nat → Nat → List Char
  | 0, _ => []
  | w + 1, n => binDigits w (n / 2) ++ [if n % 2 = 1 then '1' else '0']

/-- Python format of n as zero-padded binary at the selector's bitwidth
(the case-split suffix of model.py line 415). Rendered as exactly w digits;
a candidate value at or above 2 ^ w would render with extra digits in Python,
but every use in the claims keeps candidate values in range. -/
def binFmt (w n : Nat) : String := ⟨binDigits w n⟩

/-- Python dict assignment d[k] = v: replaces the value in place when the key
exists, otherwise appends, preserving insertion order. -/
def dictInsert (k : String) (v : α) : List (String × α) → List (String × α)
  | [] => [(k, v)]
  | (k1, v1) :: rest =>
      if k1 = k then (k, v) :: rest else (k1, v1) :: dictInsert k v rest

/-- Python enumerate, starting from a given index. -/
def enumFrom : Nat → List α → List (Nat × α)
  | _, [] => []
  | i, x :: rest => (i, x) :: enumFrom (i + 1) rest

/-- The concrete candidate values iterated by the _do_case_split loop:
the (True, False) tuple iterates as the truthy and falsy value (Python bools
are the integers 1 and 0); an int collection iterates as given. -/
def pvVals : PyVals → List Nat
  | .tupleTF => [1, 0]
  | .intList ns => ns

/-- The module and instance suffixes of _do_case_split (model.py lines
410-415): TRUE/FALSE for the (True, False) tuple, fixed-width binary
renderings otherwise. The bitwidth attribute is read inside the list
comprehension, so an empty value collection never evaluates it. -/
def mkSuffixes (v : SmtVariable) (pv : PyVals) : Except PyErr (List String) :=
  match pv with
  | .tupleTF => .ok [v.name ++ "_TRUE", v.name ++ "_FALSE"]
  | .intList [] => .ok []
  | .intList ns =>
      match v.sort.bitwidthAttr with
      | some w => .ok (ns.map (fun n => v.name ++ "_" ++ binFmt w n))
      | none => .error (.attributeError "bitwidth")

/-- The concrete selector constant cs_value_t (model.py lines 418-421):
BoolConst by truthiness for a BoolSort selector, else BVConst at the
selector's bitwidth (an AttributeError for sorts without one). -/
def mkSplitConst (v : SmtVariable) (val : Nat) : Except PyErr Term :=
  if v.sort = .bool then .ok (.boolConst (val != 0))
  else
    match v.sort.bitwidthAttr with
    | some w => .ok (.bvConst val w)
    | none => .error (.attributeError "bitwidth")

/-- The child-instance rewriting comprehension of _do_case_split (model.py
lines 429-439): each instance's bindings are rebuilt with
`t.replace_vars({input_var: cs_value_t})`. The name `input_var` is not in
scope inside `_do_case_split` (its parameter is `split_var`, and no enclosing
scope binds `input_var`), so evaluating the comprehension body raises
NameError at the first instance with nonempty bindings; instances with empty
bindings never evaluate the body and are rebuilt with empty bindings. -/
def rewriteAllBindings : List (String × Instance) →
    Except PyErr (List (String × Instance))
  | [] => .ok []
  | (n, .mk submodel []) :: rest =>
      match rewriteAllBindings rest with
      | .ok r => .ok ((n, .mk submodel []) :: r)
      | .error e => .error e
  | _ :: _ => .error (.nameError "name input_var is not defined")

/-- The instance-construction loop of _do_case_split (model.py lines
416-450): one specialized child Model per candidate value, substituted via
replace_vars, registered in the instances dict under the suffixed name with
the trailing `_inst`, with pass-through bindings for the remaining inputs. -/
def buildSplitInstances (m : Model) (v : SmtVariable)
    (inputs : List SmtVariable) :
    List (String × Nat) → List (String × Instance) →
    Except PyErr (List (String × Instance))
  | [], acc => .ok acc
  | (sfx, val) :: rest, acc =>
      match mkSplitConst v val with
      | .error e => .error e
      | .ok cst =>
          match rewriteAllBindings m.instances with
          | .error e => .error e
          | .ok childInsts =>
              let child : Model := .mk (m.name ++ "__" ++ sfx) inputs
                m.outputs m.state m.ufs [] childInsts
                (m.logic.map (fun kt =>
                  (kt.1, Term.replace_vars [(v, cst)] kt.2)))
                (m.default_next.map (fun d =>
                  d.map (fun kt => (kt.1, Term.replace_vars [(v, cst)] kt.2))))
                [] [] [] GeneratedBy.CASE_SPLIT
              let bindings := inputs.map (fun i => (i, Term.var i))
              buildSplitInstances m v inputs rest
                (dictInsert (m.name ++ "__" ++ sfx ++ "_inst")
                  (.mk child bindings) acc)

/-- The redefined parent outputs of _do_case_split (model.py lines 451-464):
an if/else selection over the first two suffixes for a BoolSort selector,
otherwise a match keyed by the enumeration index. Both comprehension bodies
index suffixes per output, so with no outputs nothing is evaluated; the
enumeration runs over possible_values, whose length always equals the suffix
count. The qualified child reference uses the child module name
(self.name__suffix), not the registered instance key (which carries a
trailing `_inst`). -/
def mkNewSplitLogic (m : Model) (v : SmtVariable) (suffixes : List String) :
    Except PyErr (List (Term × Term)) :=
  match m.outputs with
  | [] => .ok []
  | _ =>
      if v.sort = .bool then
        match suffixes with
        | s0 :: s1 :: _ =>
            .ok (m.outputs.map (fun o =>
              (Term.var o,
               Term.ite (Term.var v)
                 (Term.var ⟨m.name ++ "__" ++ s0 ++ "." ++ o.name, o.sort⟩)
                 (Term.var ⟨m.name ++ "__" ++ s1 ++ "." ++ o.name, o.sort⟩))))
        | _ => .error (.indexError "list index out of range")
      else
        .ok (m.outputs.map (fun o =>
          (Term.var o,
           Term.matchConst (Term.var v)
             ((enumFrom 0 suffixes).map (fun p =>
               (p.1,
                Term.var ⟨m.name ++ "__" ++ p.2 ++ "." ++ o.name, o.sort⟩))))))

/-- Model._do_case_split (model.py lines 409-477). The state parameter of the
source is never read (children receive self.state, the parent declares no
state); the parent keeps self.inputs and self.outputs verbatim and or-s the
CASE_SPLIT flag into its provenance tag. -/
def Model.do_case_split (m : Model) (split_var : SmtVariable)
    (inputs _state : List SmtVariable) (pv : PyVals) : Except PyErr Model :=
  match mkSuffixes split_var pv with
  | .error e => .error e
  | .ok suffixes =>
      match buildSplitInstances m split_var inputs
          (suffixes.zip (pvVals pv)) [] with
      | .error e => .error e
      | .ok insts =>
          match mkNewSplitLogic m split_var suffixes with
          | .error e => .error e
          | .ok newLogic =>
              .ok (.mk m.name m.inputs m.outputs [] m.ufs [] insts newLogic
                [] [] [] [] (m.generated_by ||| GeneratedBy.CASE_SPLIT))

/-- Default possible_values resolution inside Model.case_split (model.py
lines 378-384 and 389-395): None defaults to the (True, False) tuple for a
BoolSort selector and range(0, 2 ** bitwidth) for a BVSort selector; any
other sort raises TypeError (Python renders the whole Variable into the
message; the name stands in for it here). A caller-supplied collection is
used as given, unvalidated. -/
def resolvePossibleValues (v : SmtVariable) (pvs : Option PyVals) :
    Except PyErr PyVals :=
  match pvs with
  | some p => .ok p
  | none =>
      match v.sort with
      | .bool => .ok .tupleTF
      | .bitvec w => .ok (.intList (List.range (2 ^ w)))
      | _ => .error (.typeError ("cannot case split on input " ++ v.name ++
          ": case splits can only be performed on bool/bv variables"))

/-- Model._case_split_input (model.py lines 399-402): remove the selector
from the input list handed to the children. -/
def Model.case_split_input (m : Model) (input_var : SmtVariable)
    (pv : PyVals) : Except PyErr Model :=
  m.do_case_split input_var (m.inputs.erase input_var) m.state pv

/-- Model._case_split_var (model.py lines 404-407): remove the selector from
the state list handed on (the list _do_case_split then ignores). -/
def Model.case_split_var (m : Model) (state_var : SmtVariable)
    (pv : PyVals) : Except PyErr Model :=
  m.do_case_split state_var m.inputs (m.state.erase state_var) pv

/-- Model.case_split (model.py lines 366-397): the selector is looked up
first among the declared inputs, then among the state variables; an unknown
name raises KeyError. -/
def Model.case_split (m : Model) (var_name : String) (pvs : Option PyVals) :
    Except PyErr Model :=
  match m.inputs.find? (fun v => v.name == var_name) with
  | some v =>
      match resolvePossibleValues v pvs with
      | .error e => .error e
      | .ok pv => m.case_split_input v pv
  | none =>
      match m.state.find? (fun v => v.name == var_name) with
      | some v =>
          match resolvePossibleValues v pvs with
          | .error e => .error e
          | .ok pv => m.case_split_var v pv
      | none => .error (.keyError ("cannot case split on " ++ var_name ++
          ": no such input or state variable"))

/-- The selector lookup performed by case_split: first matching input, else
first matching state variable. The isinstance(v, smt.Variable) guard of the
state loop is vacuous here, where state lists hold Variables by type. -/
def Model.findSplitVar (m : Model) (var_name : String) : Option SmtVariable :=
  match m.inputs.find? (fun v => v.name == var_name) with
  | some v => some v
  | none => m.state.find? (fun v => v.name == var_name)

/-- Whether a sort is BoolSort or a fixed-width BVSort. -/
def SmtSort.isBoolOrBV : SmtSort → Bool
  | .bool => true
  | .bitvec _ => true
  | .array _ _ => false

/-- Whether an embedded Python call returned normally. -/
def exceptIsOk : Except PyErr Model → Bool
  | .ok _ => true
  | .error _ => false

/-- Whether an embedded Python call raised. -/
def exceptIsErr : Except PyErr Model → Bool
  | .ok _ => false
  | .error _ => true

/-- Model.to_uclid (model.py lines 255-346): lines 256-263 only build a local
declaration list, and line 264 then unconditionally raises
Exception("need to add UF placeholder vars"); the remaining serialization
code is unreachable. -/
def Model.to_uclid (_m : Model) : Except PyErr String :=
  .error (.exc "need to add UF placeholder vars")

mutual

/-- Model._get_submodules (model.py lines 348-354): DFS postorder collection
of submodels with a visited set keyed by model name; self is appended after
all children. The Python set is modelled as a membership list. -/
def Model.get_submodules (m : Model) (lst : List Model)
    (visited : List String) : List Model × List String :=
  match m with
  | .mk _ _ _ _ _ _ insts _ _ _ _ _ _ =>
      let r := getSubmodulesList insts lst visited
      (r.1 ++ [m], if m.name ∈ r.2 then r.2 else r.2 ++ [m.name])

/-- The instance loop of _get_submodules: recurse into each not-yet-visited
child model, threading the accumulated list and visited set. -/
def getSubmodulesList : List (String × Instance) → List Model →
    List String → List Model × List String
  | [], lst, visited => (lst, visited)
  | (_, .mk submodel _) :: rest, lst, visited =>
      let r :=
        if submodel.name ∈ visited then (lst, visited)
        else Model.get_submodules submodel lst visited
      getSubmodulesList rest r.1 r.2

end

/-- The serialization fold of to_uclid_with_children: Python str.join over a
generator calls to_uclid per submodel, aborting at the first raise. -/
def uclidJoinAll : List Model → Except PyErr (List String)
  | [] => .ok []
  | m :: rest =>
      match m.to_uclid with
      | .error e => .error e
      | .ok s =>
          match uclidJoinAll rest with
          | .error e => .error e
          | .ok ss => .ok (s :: ss)

/-- Model.to_uclid_with_children (model.py lines 356-364): collect submodels
in DFS postorder and join each submodel's uclid text. -/
def Model.to_uclid_with_children (m : Model) : Except PyErr String :=
  match uclidJoinAll (m.get_submodules [] []).1 with
  | .error e => .error e
  | .ok ss => .ok (String.intercalate "\n\n" ss)

/-- Pointwise structural equality of input-binding dicts. -/
def bindingsBeq : List (SmtVariable × Term) → List (SmtVariable × Term) → Bool
  | [], [] => true
  | (v1, t1) :: r1, (v2, t2) :: r2 =>
      decide (v1 = v2) && Term.beq t1 t2 && bindingsBeq r1 r2
  | _, _ => false

/-- Pointwise structural equality of Term-keyed dicts (logic maps). -/
def termDictBeq : List (Term × Term) → List (Term × Term) → Bool
  | [], [] => true
  | (k1, v1) :: r1, (k2, v2) :: r2 =>
      Term.beq k1 k2 && Term.beq v1 v2 && termDictBeq r1 r2
  | _, _ => false

/-- Pointwise structural equality of transition-map lists (default_next). -/
def termDictListBeq : List (List (Term × Term)) →
    List (List (Term × Term)) → Bool
  | [], [] => true
  | d1 :: r1, d2 :: r2 => termDictBeq d1 d2 && termDictListBeq r1 r2
  | _, _ => false

/-- Pointwise structural equality of init-value dicts. -/
def initValsBeq : List (String × Term) → List (String × Term) → Bool
  | [], [] => true
  | (k1, t1) :: r1, (k2, t2) :: r2 =>
      decide (k1 = k2) && Term.beq t1 t2 && initValsBeq r1 r2
  | _, _ => false

mutual

/-- Python structural equality of Models: the dataclass eq of model.py lines
49-87 compares every field except generated_by, which is declared with
compare=False (line 87); nested Instance and Model comparisons recurse,
again skipping provenance tags. Python dict equality disregards insertion
order; the dicts of a Model are modelled as insertion-ordered association
lists compared pointwise, which coincides with dict equality whenever the
stores list their keys in the same order (always the case below, where the
compared stores are componentwise equal). -/
def modelBeq : Model → Model → Bool
  | .mk n1 i1 o1 s1 u1 nu1 insts1 lg1 dn1 iv1 ar1 am1 _g1,
    .mk n2 i2 o2 s2 u2 nu2 insts2 lg2 dn2 iv2 ar2 am2 _g2 =>
      decide (n1 = n2) && decide (i1 = i2) && decide (o1 = o2) &&
      decide (s1 = s2) && decide (u1 = u2) && decide (nu1 = nu2) &&
      instListBeq insts1 insts2 && termDictBeq lg1 lg2 &&
      termDictListBeq dn1 dn2 && initValsBeq iv1 iv2 &&
      termListBeq ar1 ar2 && termListBeq am1 am2

/-- Pointwise equality of instance dicts (names and instances). -/
def instListBeq : List (String × Instance) → List (String × Instance) → Bool
  | [], [] => true
  | (k1, i1) :: r1, (k2, i2) :: r2 =>
      decide (k1 = k2) && instanceBeq i1 i2 && instListBeq r1 r2
  | _, _ => false

/-- Python structural equality of Instances (dataclass eq over model and
input bindings). -/
def instanceBeq : Instance → Instance → Bool
  | .mk m1 b1, .mk m2 b2 => modelBeq m1 m2 && bindingsBeq b1 b2

end

/-- AnnoType (guidance.py lines 11-18). -/
inductive AnnoType where
  | DONT_CARE
  | ASSUME
  | PARAM
  | OUTPUT
deriving DecidableEq

/-- A key of a per-signal guidance dict: a clock cycle or a predicate term
(guidance.py lines 33-35). -/
inductive GuideKey where
  | cycle (n : Nat)
  | pred (t : Term)

/-- A per-signal annotation dict: a Python defaultdict, with its default
value (initially AnnoType.DONT_CARE, guidance.py line 35, replaced wholesale
by a uniform annotate call) and its insertion-ordered entries. -/
structure GuideDict where
  dflt : AnnoType
  entries : List (GuideKey × AnnoType)

/-- Guidance (guidance.py lines 20-35): known qualified signal names, the
base-name-to-qualified-name map, the cycle count and the per-signal
annotation store. -/
structure Guidance where
  signal_names : List String
  base_to_qualified : List (String × String)
  num_cycles : Nat
  guide_dict : List (String × GuideDict)

/-- Guidance._validate_signame (guidance.py lines 37-44) restricted to
string arguments (the TypeError branch guards non-strings, which the
embedding excludes by type): a known qualified name resolves to itself,
otherwise the base-name map is consulted (KeyError when absent) and the
result is checked against the known names again. -/
def Guidance.validate_signame (g : Guidance) (signal : String) :
    Except PyErr String :=
  if signal ∈ g.signal_names then .ok signal
  else
    match g.base_to_qualified.lookup signal with
    | none => .error (.keyError signal)
    | some q => if q ∈ g.signal_names then .ok q else .error (.keyError q)

/-- The per-signal dict read `self._guide_dict[signal]`: an absent signal
yields a fresh empty defaultdict with default AnnoType.DONT_CARE
(guidance.py line 35). -/
def Guidance.ownDict (g : Guidance) (q : String) : GuideDict :=
  (g.guide_dict.lookup q).getD ⟨.DONT_CARE, []⟩

/-- The predicate-keyed test of guidance.py line 93:
`len(own_dict) and isinstance(list(own_dict.keys())[0], smt.Term)` — the
dict is nonempty and its first inserted key is a Term. -/
def GuideDict.isPredKeyed (d : GuideDict) : Bool :=
  match d.entries with
  | [] => false
  | (.pred _, _) :: _ => true
  | (.cycle _, _) :: _ => false

/-- The dict read own_dict[cycle]: an int key only ever equals a cycle key
(a Python int never equals a Term); absence falls back to the defaultdict
default. -/
def cycleLookup (c : Nat) : List (GuideKey × AnnoType) → Option AnnoType
  | [] => none
  | (.cycle n, a) :: rest => if n = c then some a else cycleLookup c rest
  | (.pred _, _) :: rest => cycleLookup c rest

/-- Guidance.get_annotation_at (guidance.py lines 84-95): resolve the signal
name, raise IndexError at or beyond num_cycles, return None for a
predicate-keyed signal, else the cycle's annotation (DONT_CARE default). -/
def Guidance.get_annotation_at (g : Guidance) (signal : String)
    (cycle : Nat) : Except PyErr (Option AnnoType) :=
  match g.validate_signame signal with
  | .error e => .error e
  | .ok q =>
      if g.num_cycles ≤ cycle then
        .error (.indexError ("cycle " ++ toString cycle ++
          " exceeds num_cycles " ++ toString g.num_cycles))
      else
        let d := g.ownDict q
        if d.isPredKeyed then .ok none
        else .ok (some ((cycleLookup cycle d.entries).getD d.dflt))

/-- Whether a get_annotation_at call raised IndexError. -/
def isIndexErr : Except PyErr (Option AnnoType) → Bool
  | .error (.indexError _) => true
  | _ => false

/-- A Boolean input variable named x. -/
def xBool : SmtVariable := ⟨"x", .bool⟩

/-- A Boolean input variable named s, used as a case-split selector. -/
def sBool : SmtVariable := ⟨"s", .bool⟩

/-- A two-bit selector variable named s. -/
def sBv2 : SmtVariable := ⟨"s", .bitvec 2⟩

/-- A one-bit selector variable named t. -/
def tBv1 : SmtVariable := ⟨"t", .bitvec 1⟩

/-- A Boolean output variable named o. -/
def oOut : SmtVariable := ⟨"o", .bool⟩

/-- An array-sorted state variable named arr. -/
def arrVar : SmtVariable := ⟨"arr", .array .bool .bool⟩

/-- A Boolean input of the submodel of mC3. -/
def subInVar : SmtVariable := ⟨"a", .bool⟩

/-- An empty, trivially valid model. -/
def mVal : Model := .mk "m" [] [] [] [] [] [] [] [] [] [] [] 2

/-- A trivially valid child model for the validation witness. -/
def wChild : Model := .mk "c" [] [] [] [] [] [] [] [] [] [] [] 2

/-- An instance of wChild with the empty binding dict it requires. -/
def wInst : Instance := .mk wChild []

/-- A valid parent model holding one instance of wChild. -/
def wParent : Model := .mk "p" [] [] [] [] [] [("i", wInst)] [] [] [] [] [] 2

/-- A model whose input x has an entry in the logic map — the situation
invariant 3 forbids. -/
def mC8a : Model :=
  .mk "m" [xBool] [] [] [] [] [] [(Term.var xBool, Term.boolConst true)]
    [[]] [] [] [] 2

/-- A model whose input x has an entry in the default_next transition map. -/
def mC8b : Model :=
  .mk "m" [xBool] [] [] [] [] [] []
    [[(Term.var xBool, Term.boolConst true)]] [] [] [] 2

/-- The submodel of mC3, with one declared input. -/
def subM : Model := .mk "S" [subInVar] [] [] [] [] [] [] [] [] [] [] 2

/-- A model with a Boolean input selector and one instance with a nonempty
input binding — the configuration that trips the undefined-name bug of
_do_case_split. -/
def mC3 : Model :=
  .mk "P" [sBool] [] [] [] []
    [("sub", .mk subM [(subInVar, Term.var sBool)])] [] [] [] [] [] 2

/-- A minimal model with only a Boolean input s. -/
def mW : Model := .mk "M" [sBool] [] [] [] [] [] [] [] [] [] [] 2

/-- The TRUE-specialized child generated by case-splitting mW on s. -/
def cWT : Model := .mk "M__s_TRUE" [] [] [] [] [] [] [] [] [] [] [] 8

/-- The FALSE-specialized child generated by case-splitting mW on s. -/
def cWF : Model := .mk "M__s_FALSE" [] [] [] [] [] [] [] [] [] [] [] 8

/-- The parent model returned by mW.case_split("s"): the selector is still
declared among the inputs. -/
def mW' : Model :=
  .mk "M" [sBool] [] [] [] []
    [("M__s_TRUE_inst", .mk cWT []), ("M__s_FALSE_inst", .mk cWF [])]
    [] [] [] [] [] 10

/-- A model with a Boolean selector s and one output o. -/
def mB : Model := .mk "B" [sBool] [oOut] [] [] [] [] [] [] [] [] [] 2

/-- The TRUE-specialized child of mB. -/
def cBT : Model := .mk "B__s_TRUE" [] [oOut] [] [] [] [] [] [] [] [] [] 8

/-- The FALSE-specialized child of mB. -/
def cBF : Model := .mk "B__s_FALSE" [] [oOut] [] [] [] [] [] [] [] [] [] 8

/-- The parent returned by mB.case_split("s"): the output selection
references B__s_TRUE.o and B__s_FALSE.o although the instances are
registered under B__s_TRUE_inst and B__s_FALSE_inst. -/
def mB' : Model :=
  .mk "B" [sBool] [oOut] [] [] []
    [("B__s_TRUE_inst", .mk cBT []), ("B__s_FALSE_inst", .mk cBF [])]
    [(Term.var oOut,
      Term.ite (Term.var sBool)
        (Term.var ⟨"B__s_TRUE.o", .bool⟩)
        (Term.var ⟨"B__s_FALSE.o", .bool⟩))]
    [] [] [] [] 10

/-- A model with a two-bit selector s and one output o. -/
def mC5 : Model := .mk "M" [sBv2] [oOut] [] [] [] [] [] [] [] [] [] 2

/-- The child of mC5 specialized to s = 2. -/
def cC5a : Model := .mk "M__s_10" [] [oOut] [] [] [] [] [] [] [] [] [] 8

/-- The child of mC5 specialized to s = 3. -/
def cC5b : Model := .mk "M__s_11" [] [oOut] [] [] [] [] [] [] [] [] [] 8

/-- The parent returned by mC5.case_split("s", [2, 3]): the match over the
child outputs is keyed by the enumeration indices 0 and 1, not by the
candidate values 2 and 3, and the qualified references drop the instance
keys' _inst suffix. -/
def mC5' : Model :=
  .mk "M" [sBv2] [oOut] [] [] []
    [("M__s_10_inst", .mk cC5a []), ("M__s_11_inst", .mk cC5b [])]
    [(Term.var oOut,
      Term.matchConst (Term.var sBv2)
        [(0, Term.var ⟨"M__s_10.o", .bool⟩),
         (1, Term.var ⟨"M__s_11.o", .bool⟩)])]
    [] [] [] [] 10

/-- A model with a one-bit input selector t. -/
def mV1 : Model := .mk "V" [tBv1] [] [] [] [] [] [] [] [] [] [] 2

/-- A model whose only candidate selector is an array-sorted state
variable. -/
def mC7 : Model := .mk "A" [] [] [arrVar] [] [] [] [] [] [] [] [] 2

/-- The model mC7.case_split("arr", []) returns: an empty explicit candidate
set slips past every sort check and produces a childless rewrite. -/
def mC7' : Model := .mk "A" [] [] [] [] [] [] [] [] [] [] [] 10

/-- A model tagged as manually written. -/
def m9a : Model := .mk "e" [xBool] [] [] [] [] [] [] [] [] [] [] 2

/-- The same model tagged as case-split generated. -/
def m9b : Model := .mk "e" [xBool] [] [] [] [] [] [] [] [] [] [] 8

/-- The child of mV1 specialized to t = 0. -/
def cV0 : Model := .mk "V__t_0" [] [] [] [] [] [] [] [] [] [] [] 8

/-- The child of mV1 specialized to t = 1. -/
def cV1 : Model := .mk "V__t_1" [] [] [] [] [] [] [] [] [] [] [] 8

/-- The parent returned by mV1.case_split("t"): 2 ^ 1 child instances. -/
def mV1' : Model :=
  .mk "V" [tBv1] [] [] [] []
    [("V__t_0_inst", .mk cV0 []), ("V__t_1_inst", .mk cV1 [])]
    [] [] [] [] [] 10

/-- A concrete Guidance store: three signals, one predicate-annotated, one
cycle-annotated, one untouched. -/
def g10 : Guidance :=
  { signal_names := ["t.a", "t.b", "t.c"]
    base_to_qualified := [("a", "t.a"), ("b", "t.b"), ("c", "t.c")]
    num_cycles := 10
    guide_dict :=
      [("t.b", ⟨.DONT_CARE, [(.pred (Term.boolConst true), .PARAM)]⟩),
       ("t.c", ⟨.DONT_CARE, [(.cycle 3, .OUTPUT)]⟩)] }

mutual

theorem Term.beq_refl (t : Term) : Term.beq t t = true := by
  cases t <;> simp [Term.beq, termListBeq_refl, armListBeq_refl, Term.beq_refl]

theorem termListBeq_refl (l : List Term) : termListBeq l l = true := by
  cases i : l with
  | nil => simp [termListBeq]
  | cons t r => simp [termListBeq, Term.beq_refl t, termListBeq_refl r]

theorem armListBeq_refl (l : List (Nat × Term)) : armListBeq l l = true := by
  cases i : l with
  | nil => simp [armListBeq]
  | cons p r =>
      cases p with
      | mk n t => simp [armListBeq, Term.beq_refl t, armListBeq_refl r]

end

theorem bindingsBeq_refl (l : List (SmtVariable × Term)) :
    bindingsBeq l l = true := by
  induction l with
  | nil => simp [bindingsBeq]
  | cons p r ih =>
      cases p with
      | mk v t => simp [bindingsBeq, Term.beq_refl t, ih]

theorem termDictBeq_refl (l : List (Term × Term)) : termDictBeq l l = true := by
  induction l with
  | nil => simp [termDictBeq]
  | cons p r ih =>
      cases p with
      | mk k v => simp [termDictBeq, Term.beq_refl, ih]

theorem termDictListBeq_refl (l : List (List (Term × Term))) :
    termDictListBeq l l = true := by
  induction l with
  | nil => simp [termDictListBeq]
  | cons d r ih => simp [termDictListBeq, termDictBeq_refl, ih]

theorem initValsBeq_refl (l : List (String × Term)) : initValsBeq l l = true := by
  induction l with
  | nil => simp [initValsBeq]
  | cons p r ih =>
      cases p with
      | mk k t => simp [initValsBeq, Term.beq_refl, ih]

mutual

theorem modelBeq_refl (m : Model) : modelBeq m m = true := by
  cases m with
  | mk n i o s u nu insts lg dn iv ar am g =>
      simp [modelBeq, instListBeq_refl insts, termDictBeq_refl,
        termDictListBeq_refl, initValsBeq_refl, termListBeq_refl]

theorem instListBeq_refl (l : List (String × Instance)) :
    instListBeq l l = true := by
  cases i : l with
  | nil => simp [instListBeq]
  | cons p r =>
      cases p with
      | mk k inst => simp [instListBeq, instanceBeq_refl inst, instListBeq_refl r]

theorem instanceBeq_refl (i : Instance) : instanceBeq i i = true := by
  cases i with
  | mk m b => simp [instanceBeq, modelBeq_refl m, bindingsBeq_refl]

end

theorem dictInsert_absent (k : String) (v : α) (l : List (String × α))
    (h : k ∉ l.map Prod.fst) : dictInsert k v l = l ++ [(k, v)] := by
  induction l with
  | nil => rfl
  | cons p rest ih =>
      cases p with
      | mk k1 v1 =>
          simp only [List.map, List.mem_cons] at h
          push_neg at h
          simp only [dictInsert, if_neg (Ne.symm h.1), List.cons_append,
            List.cons.injEq, true_and]
          exact ih h.2

theorem mkSuffixes_length (v : SmtVariable) (pv : PyVals) (sfx : List String)
    (h : mkSuffixes v pv = .ok sfx) : sfx.length = (pvVals pv).length := by
  cases pv with
  | tupleTF =>
      simp only [mkSuffixes, Except.ok.injEq] at h
      subst h
      rfl
  | intList ns =>
      cases ns with
      | nil =>
          simp only [mkSuffixes, Except.ok.injEq] at h
          subst h
          rfl
      | cons n rest =>
          simp only [mkSuffixes] at h
          cases hbw : v.sort.bitwidthAttr with
          | none => rw [hbw] at h; exact absurd h (by simp)
          | some w =>
              rw [hbw] at h
              simp only [Except.ok.injEq] at h
              subst h
              simp [pvVals]

theorem buildSplitInstances_ok_keys (m : Model) (v : SmtVariable)
    (inputs : List SmtVariable) :
    ∀ (pairs : List (String × Nat)) (acc res : List (String × Instance)),
      buildSplitInstances m v inputs pairs acc = .ok res →
      (acc.map Prod.fst ++
        pairs.map (fun p => m.name ++ "__" ++ p.1 ++ "_inst")).Nodup →
      res.map Prod.fst = acc.map Prod.fst ++
        pairs.map (fun p => m.name ++ "__" ++ p.1 ++ "_inst") := by
  intro pairs
  induction pairs with
  | nil =>
      intro acc res h _
      simp only [buildSplitInstances, Except.ok.injEq] at h
      subst h
      simp
  | cons p rest ih =>
      intro acc res h hnd
      cases p with
      | mk sfx val =>
          simp only [List.map_cons] at hnd ⊢
          simp only [buildSplitInstances] at h
          cases hc : mkSplitConst v val with
          | error e => rw [hc] at h; exact absurd h (by simp)
          | ok cst =>
              rw [hc] at h
              cases hb : rewriteAllBindings m.instances with
              | error e => rw [hb] at h; exact absurd h (by simp)
              | ok childInsts =>
                  rw [hb] at h
                  have habsent :
                      (m.name ++ "__" ++ sfx ++ "_inst") ∉ acc.map Prod.fst := by
                    have hsplit := List.nodup_append.mp hnd
                    exact fun hmem => hsplit.2.2 hmem (by simp)
                  have hacc' : (dictInsert (m.name ++ "__" ++ sfx ++ "_inst")
                      (Instance.mk (Model.mk (m.name ++ "__" ++ sfx) inputs
                        m.outputs m.state m.ufs [] childInsts
                        (m.logic.map (fun kt =>
                          (kt.1, Term.replace_vars [(v, cst)] kt.2)))
                        (m.default_next.map (fun d => d.map (fun kt =>
                          (kt.1, Term.replace_vars [(v, cst)] kt.2))))
                        [] [] [] GeneratedBy.CASE_SPLIT)
                        (inputs.map (fun i => (i, Term.var i)))) acc).map
                      Prod.fst = acc.map Prod.fst ++
                        [m.name ++ "__" ++ sfx ++ "_inst"] := by
                    rw [dictInsert_absent _ _ _ habsent]
                    simp
                  have hnd' := hnd
                  rw [List.append_cons] at hnd'
                  rw [← hacc'] at hnd'
                  have hres := ih _ res h hnd'
                  rw [hres, hacc', ← List.append_cons]

theorem do_case_split_ok (m : Model) (v : SmtVariable)
    (inputs st : List SmtVariable) (pv : PyVals) (m' : Model)
    (h : m.do_case_split v inputs st pv = .ok m') :
    ∃ sfx insts newLogic,
      mkSuffixes v pv = .ok sfx ∧
      buildSplitInstances m v inputs (sfx.zip (pvVals pv)) [] = .ok insts ∧
      mkNewSplitLogic m v sfx = .ok newLogic ∧
      m' = .mk m.name m.inputs m.outputs [] m.ufs [] insts newLogic
        [] [] [] [] (m.generated_by ||| GeneratedBy.CASE_SPLIT) := by
  unfold Model.do_case_split at h
  cases hs : mkSuffixes v pv with
  | error e => rw [hs] at h; exact absurd h (by simp)
  | ok sfx =>
      rw [hs] at h
      dsimp only at h
      cases hbi : buildSplitInstances m v inputs (sfx.zip (pvVals pv)) [] with
      | error e => rw [hbi] at h; exact absurd h (by simp)
      | ok insts =>
          rw [hbi] at h
          dsimp only at h
          cases hnl : mkNewSplitLogic m v sfx with
          | error e => rw [hnl] at h; exact absurd h (by simp)
          | ok newLogic =>
              rw [hnl] at h
              simp only [Except.ok.injEq] at h
              exact ⟨sfx, insts, newLogic, rfl, hbi, hnl, h.symm⟩

theorem case_split_ok (m : Model) (s : String) (pvs : Option PyVals)
    (m' : Model) (h : m.case_split s pvs = .ok m') :
    ∃ v pv inputs st,
      m.findSplitVar s = some v ∧
      resolvePossibleValues v pvs = .ok pv ∧
      m.do_case_split v inputs st pv = .ok m' := by
  unfold Model.case_split at h
  unfold Model.findSplitVar
  cases hfi : m.inputs.find? (fun v => v.name == s) with
  | some v =>
      rw [hfi] at h
      dsimp only at h
      cases hres : resolvePossibleValues v pvs with
      | error e => rw [hres] at h; exact absurd h (by simp)
      | ok pv =>
          rw [hres] at h
          dsimp only at h
          unfold Model.case_split_input at h
          exact ⟨v, pv, _, _, rfl, hres, h⟩
  | none =>
      rw [hfi] at h
      dsimp only at h
      cases hfs : m.state.find? (fun v => v.name == s) with
      | some v =>
          rw [hfs] at h
          dsimp only at h
          cases hres : resolvePossibleValues v pvs with
          | error e => rw [hres] at h; exact absurd h (by simp)
          | ok pv =>
              rw [hres] at h
              dsimp only at h
              unfold Model.case_split_var at h
              exact ⟨v, pv, _, _, rfl, hres, h⟩
      | none => rw [hfs] at h; exact absurd h (by simp)

theorem binDigits_length (w : Nat) : ∀ n, (binDigits w n).length = w := by
  induction w with
  | zero => intro n; rfl
  | succ w ih => intro n; simp [binDigits, ih]

theorem binDigits_inj (w : Nat) : ∀ n m, n < 2 ^ w → m < 2 ^ w →
    binDigits w n = binDigits w m → n = m := by
  induction w with
  | zero =>
      intro n m hn hm _
      rw [Nat.pow_zero] at hn hm
      omega
  | succ w ih =>
      intro n m hn hm h
      simp only [binDigits] at h
      have hp : (2 : Nat) ^ (w + 1) = 2 ^ w * 2 := Nat.pow_succ 2 w
      have hlen : ([if n % 2 = 1 then '1' else '0'] : List Char).length =
          ([if m % 2 = 1 then '1' else '0'] : List Char).length := by simp
      obtain ⟨hdig, hbit⟩ := List.append_inj' h hlen
      have hd : n / 2 = m / 2 :=
        ih (n / 2) (m / 2) (by omega) (by omega) hdig
      have hchar : (if n % 2 = 1 then '1' else '0') =
          (if m % 2 = 1 then '1' else '0') := by
        simpa using hbit
      have hb : n % 2 = m % 2 := by
        by_cases hn2 : n % 2 = 1 <;> by_cases hm2 : m % 2 = 1
        · omega
        · rw [if_pos hn2, if_neg hm2] at hchar
          exact absurd hchar (by decide)
        · rw [if_neg hn2, if_pos hm2] at hchar
          exact absurd hchar (by decide)
        · omega
      omega

theorem str_mid_inj (p q : String) (x y : List Char)
    (h : p ++ String.mk x ++ q = p ++ String.mk y ++ q) : x = y := by
  have hd := congrArg String.data h
  simp only [String.data_append, List.append_assoc] at hd
  have hx' : x ++ q.data = y ++ q.data := List.append_cancel_left hd
  exact (List.append_inj' hx' rfl).1

theorem bool_keys_ne (a b : String) :
    a ++ "__" ++ (b ++ "_TRUE") ++ "_inst" ≠
      a ++ "__" ++ (b ++ "_FALSE") ++ "_inst" := by
  intro h
  have hl := congrArg String.length h
  simp only [String.length_append] at hl
  have h5 : ("_TRUE" : String).length = 5 := rfl
  have h6 : ("_FALSE" : String).length = 6 := rfl
  omega

theorem bv_key_inj (a b : String) (w : Nat) (n m : Nat)
    (hn : n < 2 ^ w) (hm : m < 2 ^ w)
    (h : a ++ "__" ++ (b ++ "_" ++ binFmt w n) ++ "_inst" =
      a ++ "__" ++ (b ++ "_" ++ binFmt w m) ++ "_inst") : n = m := by
  have h' : (a ++ "__" ++ (b ++ "_")) ++ binFmt w n ++ "_inst" =
      (a ++ "__" ++ (b ++ "_")) ++ binFmt w m ++ "_inst" := by
    simpa [String.append_assoc] using h
  exact binDigits_inj w n m hn hm (str_mid_inj _ _ _ _ h')

theorem zip_keys_eq (a : String) :
    ∀ (sfx : List String) (vals : List Nat), sfx.length ≤ vals.length →
      (sfx.zip vals).map (fun p => a ++ "__" ++ p.1 ++ "_inst") =
        sfx.map (fun t => a ++ "__" ++ t ++ "_inst") := by
  intro sfx
  induction sfx with
  | nil => intro vals _; simp
  | cons x rest ih =>
      intro vals h
      cases vals with
      | nil => simp at h
      | cons b vr =>
          simp only [List.zip_cons_cons, List.map_cons, List.cons.injEq,
            true_and]
          exact ih vr (by simpa using h)

theorem mkSuffixes_intList (v : SmtVariable) (w : Nat) (ns : List Nat)
    (hbw : v.sort.bitwidthAttr = some w) :
    mkSuffixes v (.intList ns) =
      .ok (ns.map (fun n => v.name ++ "_" ++ binFmt w n)) := by
  cases ns with
  | nil => simp [mkSuffixes]
  | cons a rest => simp [mkSuffixes, hbw]

theorem case_split_count (m : Model) (v : SmtVariable)
    (inputs st : List SmtVariable) (pv : PyVals) (m' : Model)
    (sfx : List String)
    (hdo : m.do_case_split v inputs st pv = .ok m')
    (hsfx : mkSuffixes v pv = .ok sfx)
    (hnd : (sfx.map (fun t => m.name ++ "__" ++ t ++ "_inst")).Nodup) :
    m'.instances.length = sfx.length := by
  obtain ⟨sfx2, insts, nl, hsfx2, hbi, hnl, hm⟩ :=
    do_case_split_ok m v inputs st pv m' hdo
  rw [hsfx] at hsfx2
  injection hsfx2 with hse
  subst hse
  subst hm
  have hlen := mkSuffixes_length v pv sfx hsfx
  have hkeys0 := zip_keys_eq m.name sfx (pvVals pv) (le_of_eq hlen)
  have hkeys := buildSplitInstances_ok_keys m v inputs
    (sfx.zip (pvVals pv)) [] insts hbi (by simpa [hkeys0] using hnd)
  simp only [Model.instances]
  have h1 := congrArg List.length hkeys
  simp only [List.length_map, List.map_nil, List.nil_append,
    List.length_zip, hlen, Nat.min_self] at h1
  rw [h1, hlen]

theorem do_case_split_bad_sort (m : Model) (v : SmtVariable)
    (inputs st : List SmtVariable) (pv : PyVals)
    (hnotbool : v.sort ≠ .bool) (hbw : v.sort.bitwidthAttr = none) :
    (pv = .tupleTF → exceptIsErr (m.do_case_split v inputs st pv) = true) ∧
    (∀ ns, pv = .intList ns → ns ≠ [] →
      exceptIsErr (m.do_case_split v inputs st pv) = true) := by
  constructor
  · intro hp
    subst hp
    have hconst : mkSplitConst v 1 = .error (.attributeError "bitwidth") := by
      unfold mkSplitConst
      rw [if_neg hnotbool, hbw]
    simp [Model.do_case_split, mkSuffixes, pvVals, buildSplitInstances,
      hconst, exceptIsErr]
  · intro ns hp hne
    subst hp
    cases ns with
    | nil => exact absurd rfl hne
    | cons a rest =>
        simp [Model.do_case_split, mkSuffixes, hbw, exceptIsErr]

theorem validateErrs_nil_insts (m : Model) (h : Model.validateErrs m = []) :
    validateInstErrs m.instances = [] := by
  cases m with
  | mk n i o st u nu insts lg dn iv ar am g =>
      simp only [Model.validateErrs] at h
      simp only [Model.instances]
      simp only [List.append_eq_nil] at h
      exact h.1.1.1.1.1.1

theorem validateInstErrs_nil (l : List (String × Instance))
    (h : validateInstErrs l = []) :
    ∀ p ∈ l, Model.validateErrs (Instance.model p.2) = [] := by
  induction l with
  | nil => simp
  | cons p rest ih =>
      cases p with
      | mk subname inst =>
          cases inst with
          | mk submodel subinputs =>
              intro q hq
              simp only [validateInstErrs, List.append_eq_nil] at h
              rcases List.mem_cons.mp hq with rfl | hmem
              · simp only [Instance.model]
                by_cases hsub : Model.validateErrs submodel = []
                · exact hsub
                · rw [if_neg hsub] at h
                  exact absurd h.1.1.1 (by simp)
              · exact ih h.2 q hmem

theorem get_submodules_snoc (m : Model) (lst : List Model)
    (vis : List String) : ∃ pre, (m.get_submodules lst vis).1 = pre ++ [m] := by
  cases m with
  | mk n i o st u nu insts lg dn iv ar am g =>
      exact ⟨(getSubmodulesList insts lst vis).1, rfl⟩

theorem uclidJoinAll_cons_err (x : Model) (xs : List Model) :
    uclidJoinAll (x :: xs) = .error (.exc "need to add UF placeholder vars") := by
  simp [uclidJoinAll, Model.to_uclid]

/-- C1: the claim fails on the code. Model.to_uclid raises
Exception("need to add UF placeholder vars") unconditionally at model.py
line 264, so Model.to_uclid_with_children raises on every Model and never
returns the deterministic one-block-per-model-name concatenation the claim
describes (the DFS postorder collection itself completes, but serialization
of its first entry already raises). -/
theorem C1_to_uclid_with_children_raises (m : Model) :
    m.to_uclid_with_children =
      .error (.exc "need to add UF placeholder vars") := by
  obtain ⟨pre, hpre⟩ := get_submodules_snoc m [] []
  unfold Model.to_uclid_with_children
  rw [hpre]
  obtain ⟨x, xs, hxs⟩ :=
    List.exists_cons_of_ne_nil (l := pre ++ [m]) (by simp)
  rw [hxs, uclidJoinAll_cons_err]

/-- C2 (counterexample): validate of a concrete valid Model returns the bare
Python boolean True (model.py line 206, `return len(errs) == 0`), not a
(bool, diagnostics) pair. -/
theorem C2_counterexample :
    Model.validateRet mVal = PyRet.bool true ∧
    (Model.validateRet mVal).isPair = false :=
  ⟨rfl, rfl⟩

/-- C2 (amended): validate returns the single boolean `len(errs) == 0` — the
diagnostics are printed, not returned — computed over the collect-all
diagnostics list, which the function accumulates without raising; the zeroth
pass recurses into every instance first, so a parent whose diagnostics list
is empty has only instances whose models also collected no diagnostics. -/
theorem C2_validate_returns_bool (m : Model) :
    Model.validateRet m = PyRet.bool ((Model.validateErrs m).length == 0) ∧
    (Model.validateErrs m = [] →
      ∀ p ∈ m.instances, Model.validateErrs (Instance.model p.2) = []) := by
  refine ⟨rfl, fun h p hp => ?_⟩
  exact validateInstErrs_nil m.instances (validateErrs_nil_insts m h) p hp

/-- C2 (witness): the amended theorem applied to the concrete parent
wParent, whose empty diagnostics list certifies its child wChild. -/
theorem C2_witness : Model.validateErrs (Instance.model wInst) = [] :=
  (C2_validate_returns_bool wParent).2 rfl ("i", wInst)
    (List.mem_singleton.mpr rfl)

/-- C8: code bug — an input whose name has an entry in the logic map
produces no diagnostic at all (model.py line 181 tests the string
`v.name` for membership in the Term-keyed logic dict, which can never
succeed), so validate reports mC8a fully valid; the analogous default_next
entry of mC8b is reported exactly as the claim describes, confirming the
intent of the unreachable check. -/
theorem C8_input_logic_unreported :
    Model.validateErrs mC8a = [] ∧ Model.validate mC8a = true ∧
    Model.validateErrs mC8b =
      ["input variable x has illegal declared transition relation"] :=
  ⟨rfl, rfl, rfl⟩

/-- C9: Python structural equality of Models ignores the provenance tag:
Models agreeing on name, inputs, outputs, state, UF placeholders, next UFs,
instances, logic, default_next, init values, assertions and assumptions
compare equal whatever their generated_by values (dataclass field with
compare=False, model.py line 87). -/
theorem C9_eq_ignores_generated_by (m1 m2 : Model)
    (hn : m1.name = m2.name) (hi : m1.inputs = m2.inputs)
    (ho : m1.outputs = m2.outputs) (hs : m1.state = m2.state)
    (hu : m1.ufs = m2.ufs) (hnu : m1.next_ufs = m2.next_ufs)
    (hin : m1.instances = m2.instances) (hl : m1.logic = m2.logic)
    (hd : m1.default_next = m2.default_next)
    (hiv : m1.init_values = m2.init_values)
    (har : m1.assertions = m2.assertions)
    (ham : m1.assumptions = m2.assumptions) :
    modelBeq m1 m2 = true := by
  cases m1 with
  | mk n1 i1 o1 s1 u1 nu1 insts1 lg1 dn1 iv1 ar1 am1 g1 =>
      cases m2 with
      | mk n2 i2 o2 s2 u2 nu2 insts2 lg2 dn2 iv2 ar2 am2 g2 =>
          simp only [Model.name, Model.inputs, Model.outputs, Model.state,
            Model.ufs, Model.next_ufs, Model.instances, Model.logic,
            Model.default_next, Model.init_values, Model.assertions,
            Model.assumptions] at hn hi ho hs hu hnu hin hl hd hiv har ham
          subst hn hi ho hs hu hnu hin hl hd hiv har ham
          simp [modelBeq, instListBeq_refl, termDictBeq_refl,
            termDictListBeq_refl, initValsBeq_refl, termListBeq_refl]

/-- C9 (witness): two concrete Models differing only in generated_by have
different tags yet compare equal. -/
theorem C9_witness :
    m9a.generated_by ≠ m9b.generated_by ∧ modelBeq m9a m9b = true :=
  ⟨by decide,
   C9_eq_ignores_generated_by m9a m9b rfl rfl rfl rfl rfl rfl rfl rfl rfl
     rfl rfl rfl⟩

/-- C3: code bug — case-splitting a Model owning an Instance with a
nonempty input binding raises NameError instead of substituting the
selector: _do_case_split rewrites bindings with
`t.replace_vars({input_var: cs_value_t})` (model.py line 434), but no name
input_var is in scope there (the parameter is split_var), so the claimed
substitution through instance input-bindings never happens. -/
theorem C3_case_split_name_error :
    mC3.case_split "s" none =
      .error (.nameError "name input_var is not defined") := rfl

/-- C4 (counterexample): case-splitting mW on its input s succeeds, yet the
returned parent still declares s among its inputs (model.py line 469 passes
inputs=self.inputs), refuting the claim that the selector is removed from
the parent's declared inputs. -/
theorem C4_counterexample :
    mW.case_split "s" none = .ok mW' ∧ sBool ∈ mW'.inputs :=
  ⟨rfl, by decide⟩

/-- C4 (amended): the parent model returned by case_split keeps the
original inputs and outputs verbatim — an input selector therefore remains
declared (only the children lose it), while a state selector was never an
input or output — and the parent declares no state variables at all. -/
theorem C4_parent_ports (m : Model) (s : String) (pvs : Option PyVals)
    (m' : Model) (h : m.case_split s pvs = .ok m') :
    m'.inputs = m.inputs ∧ m'.outputs = m.outputs ∧ m'.state = [] := by
  obtain ⟨v, pv, inputs, st, _, _, hdo⟩ := case_split_ok m s pvs m' h
  obtain ⟨sfx, insts, nl, _, _, _, hm⟩ :=
    do_case_split_ok m v inputs st pv m' hdo
  subst hm
  exact ⟨rfl, rfl, rfl⟩

/-- C4 (witness): the amended theorem at mW. -/
theorem C4_witness :
    mW.case_split "s" none = .ok mW' ∧ mW'.inputs = mW.inputs ∧
      mW'.outputs = mW.outputs ∧ mW'.state = [] :=
  ⟨rfl, C4_parent_ports mW "s" none mW' rfl⟩

/-- C5 (counterexample): splitting mC5 on the two-bit s with explicit
candidate values [2, 3] succeeds; the selection over child outputs
references M__s_10.o and M__s_11.o while the child instances are registered
under M__s_10_inst and M__s_11_inst — no registered instance name qualifies
any reference — and the match arms are keyed by the enumeration indices 0
and 1, not by the candidate values 2 and 3. -/
theorem C5_counterexample :
    mC5.case_split "s" (some (.intList [2, 3])) = .ok mC5' ∧
    mC5'.instances.map Prod.fst = ["M__s_10_inst", "M__s_11_inst"] ∧
    mC5'.logic = [(Term.var oOut,
      Term.matchConst (Term.var sBv2)
        [(0, Term.var ⟨"M__s_10.o", .bool⟩),
         (1, Term.var ⟨"M__s_11.o", .bool⟩)])] ∧
    (mC5'.instances.map Prod.fst).all
      (fun k => !(decide ("M__s_10.o" = k ++ "." ++ "o"))) = true :=
  ⟨rfl, rfl, rfl, by decide⟩

/-- C5 (amended): each parent output is redefined as a selection over
qualified child outputs of the form childModelName.portName, where the
child Instance is registered under childModelName ++ "_inst" — the
qualifier is the child model's name, not the registered instance name; the
selection is an if/else over the two children for a BoolSort selector and
otherwise a match keyed by the enumeration index of each candidate value
(for the default full range the index equals the value). Candidate values
are assumed to yield pairwise distinct instance keys, as the defaults do. -/
theorem C5_parent_selection (m : Model) (s : String) (pvs : Option PyVals)
    (v : SmtVariable) (pv : PyVals) (sfx : List String) (m' : Model)
    (hv : m.findSplitVar s = some v)
    (hpv : resolvePossibleValues v pvs = .ok pv)
    (hsfx : mkSuffixes v pv = .ok sfx)
    (hnd : (sfx.map (fun t => m.name ++ "__" ++ t ++ "_inst")).Nodup)
    (h : m.case_split s pvs = .ok m') :
    m'.instances.map Prod.fst =
      sfx.map (fun t => m.name ++ "__" ++ t ++ "_inst") ∧
    (v.sort = .bool →
      ∀ s0 s1, sfx = [s0, s1] →
        m'.logic = m.outputs.map (fun o =>
          (Term.var o, Term.ite (Term.var v)
            (Term.var ⟨m.name ++ "__" ++ s0 ++ "." ++ o.name, o.sort⟩)
            (Term.var ⟨m.name ++ "__" ++ s1 ++ "." ++ o.name, o.sort⟩)))) ∧
    (v.sort ≠ .bool →
      m'.logic = m.outputs.map (fun o =>
        (Term.var o, Term.matchConst (Term.var v)
          ((enumFrom 0 sfx).map (fun p =>
            (p.1, Term.var ⟨m.name ++ "__" ++ p.2 ++ "." ++ o.name,
              o.sort⟩)))))) := by
  obtain ⟨v2, pv2, inputs, st, hv2, hpv2, hdo⟩ := case_split_ok m s pvs m' h
  rw [hv] at hv2
  injection hv2 with hveq
  subst hveq
  rw [hpv] at hpv2
  injection hpv2 with hpveq
  subst hpveq
  obtain ⟨sfx2, insts, nl, hsfx2, hbi, hnl, hm⟩ :=
    do_case_split_ok m v inputs st pv m' hdo
  rw [hsfx] at hsfx2
  injection hsfx2 with hse
  subst hse
  subst hm
  have hlen := mkSuffixes_length v pv sfx hsfx
  have hkeys0 := zip_keys_eq m.name sfx (pvVals pv) (le_of_eq hlen)
  have hkeys := buildSplitInstances_ok_keys m v inputs
    (sfx.zip (pvVals pv)) [] insts hbi (by simpa [hkeys0] using hnd)
  refine ⟨?_, ?_, ?_⟩
  · simp only [Model.instances]
    rw [hkeys]
    simp only [List.map_nil, List.nil_append]
    exact hkeys0
  · intro hsort s0 s1 hsfx01
    subst hsfx01
    simp only [Model.logic]
    unfold mkNewSplitLogic at hnl
    cases houts : m.outputs with
    | nil =>
        rw [houts] at hnl
        dsimp only at hnl
        injection hnl with hnle
        rw [← hnle]
        simp
    | cons o os =>
        rw [houts] at hnl
        dsimp only at hnl
        rw [if_pos hsort] at hnl
        injection hnl with hnle
        rw [← hnle]
  · intro hsort
    simp only [Model.logic]
    unfold mkNewSplitLogic at hnl
    cases houts : m.outputs with
    | nil =>
        rw [houts] at hnl
        dsimp only at hnl
        injection hnl with hnle
        rw [← hnle]
        simp
    | cons o os =>
        rw [houts] at hnl
        dsimp only at hnl
        rw [if_neg hsort] at hnl
        injection hnl with hnle
        rw [← hnle]

/-- C5 (witness): the amended theorem at mB with Boolean selector s: the
instance keys are the child model names with _inst appended, and the output
selection is the if/else chain over those child model names. -/
theorem C5_witness :
    mB.case_split "s" none = .ok mB' ∧
    mB'.instances.map Prod.fst =
      ["s_TRUE", "s_FALSE"].map (fun t => mB.name ++ "__" ++ t ++ "_inst") ∧
    mB'.logic = mB.outputs.map (fun o =>
      (Term.var o, Term.ite (Term.var sBool)
        (Term.var ⟨mB.name ++ "__" ++ "s_TRUE" ++ "." ++ o.name, o.sort⟩)
        (Term.var ⟨mB.name ++ "__" ++ "s_FALSE" ++ "." ++ o.name,
          o.sort⟩))) := by
  have h := C5_parent_selection mB "s" none sBool .tupleTF
    ["s_TRUE", "s_FALSE"] mB' rfl rfl rfl (by decide) rfl
  exact ⟨rfl, h.1, h.2.1 rfl "s_TRUE" "s_FALSE" rfl⟩

/-- C6 (amended): whenever case_split with no explicit value set returns a
Model, it registers exactly 2 child instances for a Boolean selector and
exactly 2 ^ n child instances for an n-bit bitvector selector, one per value
of 0..2^n-1; on a Model owning an instance with a nonempty input binding,
case_split instead raises (see the counterexample) and produces nothing. -/
theorem C6_instance_counts (m : Model) (s : String) (v : SmtVariable)
    (m' : Model) (hv : m.findSplitVar s = some v)
    (h : m.case_split s none = .ok m') :
    (v.sort = .bool → m'.instances.length = 2) ∧
    (∀ w, v.sort = .bitvec w → m'.instances.length = 2 ^ w) := by
  obtain ⟨v2, pv2, inputs, st, hv2, hpv2, hdo⟩ := case_split_ok m s none m' h
  rw [hv] at hv2
  injection hv2 with hveq
  subst hveq
  constructor
  · intro hsort
    have hpv : pv2 = .tupleTF := by
      unfold resolvePossibleValues at hpv2
      rw [hsort] at hpv2
      dsimp only at hpv2
      injection hpv2 with he
      exact he.symm
    subst hpv
    have hnd : (([v.name ++ "_TRUE", v.name ++ "_FALSE"]).map
        (fun t => m.name ++ "__" ++ t ++ "_inst")).Nodup := by
      simp only [List.map_cons, List.map_nil, List.nodup_cons,
        List.mem_singleton, List.not_mem_nil, not_false_iff, and_true,
        List.nodup_nil]
      exact bool_keys_ne m.name v.name
    have hcount := case_split_count m v inputs st .tupleTF m'
      [v.name ++ "_TRUE", v.name ++ "_FALSE"] hdo rfl hnd
    simpa using hcount
  · intro w hsort
    have hpv : pv2 = .intList (List.range (2 ^ w)) := by
      unfold resolvePossibleValues at hpv2
      rw [hsort] at hpv2
      dsimp only at hpv2
      injection hpv2 with he
      exact he.symm
    subst hpv
    have hbw : v.sort.bitwidthAttr = some w := by
      rw [hsort]; rfl
    have hsfx := mkSuffixes_intList v w (List.range (2 ^ w)) hbw
    have hnd : (((List.range (2 ^ w)).map
        (fun n => v.name ++ "_" ++ binFmt w n)).map
        (fun t => m.name ++ "__" ++ t ++ "_inst")).Nodup := by
      rw [List.map_map]
      refine List.Nodup.map_on ?_ (List.nodup_range (2 ^ w))
      intro x hx y hy hxy
      exact bv_key_inj m.name v.name w x y
        (List.mem_range.mp hx) (List.mem_range.mp hy) hxy
    have hcount := case_split_count m v inputs st
      (.intList (List.range (2 ^ w))) m'
      ((List.range (2 ^ w)).map (fun n => v.name ++ "_" ++ binFmt w n))
      hdo hsfx hnd
    simpa using hcount

/-- C6 (counterexample): the selector s of mC3 is a declared Boolean input
and no explicit value set is given, yet case_split produces no child
instances at all: mC3 owns an instance with a nonempty input binding, so
case_split raises NameError (the undefined input_var of model.py line 434)
instead of returning a Model. -/
theorem C6_counterexample :
    mC3.findSplitVar "s" = some sBool ∧
    sBool.sort = SmtSort.bool ∧
    mC3.case_split "s" none =
      .error (.nameError "name input_var is not defined") ∧
    exceptIsErr (mC3.case_split "s" none) = true :=
  ⟨rfl, rfl, rfl, rfl⟩

/-- C6 (witness): the amended theorem at mW (Boolean, 2 instances) and at
mV1 (one-bit selector, 2 ^ 1 instances). -/
theorem C6_witness :
    mW.case_split "s" none = .ok mW' ∧ mW'.instances.length = 2 ∧
    mV1.case_split "t" none = .ok mV1' ∧ mV1'.instances.length = 2 ^ 1 :=
  ⟨rfl, (C6_instance_counts mW "s" sBool mW' rfl rfl).1 rfl,
   rfl, (C6_instance_counts mV1 "t" tBv1 mV1' rfl rfl).2 1 rfl⟩

/-- C7 (counterexample): the selector arr of mC7 is an array-sorted state
variable, yet case_split with an explicitly empty candidate collection
returns a rewritten Model instead of raising — the sort checks live in the
defaulting branch and in per-candidate code that an empty collection never
executes. -/
theorem C7_counterexample :
    mC7.findSplitVar "arr" = some arrVar ∧
    arrVar.sort.isBoolOrBV = false ∧
    mC7.case_split "arr" (some (.intList [])) = .ok mC7' :=
  ⟨rfl, rfl, rfl⟩

/-- C7 (amended): an unknown selector name always raises KeyError; a
selector whose sort is neither Bool nor a fixed-width BitVector raises
whenever possible_values is defaulted (TypeError) or nonempty (the
bitwidth attribute access fails) — but an explicitly empty candidate
collection slips through the sort checks (see the counterexample). -/
theorem C7_hard_failures (m : Model) (s : String) (pvs : Option PyVals) :
    (m.findSplitVar s = none →
      m.case_split s pvs = .error (.keyError ("cannot case split on " ++
        s ++ ": no such input or state variable"))) ∧
    (∀ v, m.findSplitVar s = some v → v.sort.isBoolOrBV = false →
      (pvs = none → m.case_split s pvs = .error (.typeError
        ("cannot case split on input " ++ v.name ++
          ": case splits can only be performed on bool/bv variables"))) ∧
      (pvs = some .tupleTF → exceptIsErr (m.case_split s pvs) = true) ∧
      (∀ ns, pvs = some (.intList ns) → ns ≠ [] →
        exceptIsErr (m.case_split s pvs) = true)) := by
  constructor
  · intro hnone
    unfold Model.findSplitVar at hnone
    unfold Model.case_split
    cases hfi : m.inputs.find? (fun x => x.name == s) with
    | some v => rw [hfi] at hnone; exact absurd hnone (by simp)
    | none =>
        rw [hfi] at hnone
        dsimp only at hnone
        rw [hnone]
  · intro v hv hsort
    have hnotbool : v.sort ≠ .bool := by
      intro hb
      rw [hb] at hsort
      simp [SmtSort.isBoolOrBV] at hsort
    have hbw : v.sort.bitwidthAttr = none := by
      cases hs' : v.sort with
      | bool => rfl
      | bitvec w => rw [hs'] at hsort; simp [SmtSort.isBoolOrBV] at hsort
      | array i e => rfl
    have hres : resolvePossibleValues v none = .error (.typeError
        ("cannot case split on input " ++ v.name ++
          ": case splits can only be performed on bool/bv variables")) := by
      cases hs' : v.sort with
      | bool => exact absurd hs' hnotbool
      | bitvec w => rw [hs'] at hsort; simp [SmtSort.isBoolOrBV] at hsort
      | array i e => simp [resolvePossibleValues, hs']
    unfold Model.findSplitVar at hv
    unfold Model.case_split
    cases hfi : m.inputs.find? (fun x => x.name == s) with
    | some v0 =>
        rw [hfi] at hv
        dsimp only at hv
        injection hv with hveq
        subst hveq
        dsimp only
        refine ⟨?_, ?_, ?_⟩
        · intro hp
          subst hp
          rw [hres]
        · intro hp
          subst hp
          dsimp only [resolvePossibleValues]
          unfold Model.case_split_input
          exact (do_case_split_bad_sort m v0 (m.inputs.erase v0) m.state
            .tupleTF hnotbool hbw).1 rfl
        · intro ns hp hne
          subst hp
          dsimp only [resolvePossibleValues]
          unfold Model.case_split_input
          exact (do_case_split_bad_sort m v0 (m.inputs.erase v0) m.state
            (.intList ns) hnotbool hbw).2 ns rfl hne
    | none =>
        rw [hfi] at hv
        dsimp only at hv
        cases hfs : m.state.find? (fun x => x.name == s) with
        | none => rw [hfs] at hv; exact absurd hv (by simp)
        | some v0 =>
            rw [hfs] at hv
            injection hv with hveq
            subst hveq
            dsimp only
            refine ⟨?_, ?_, ?_⟩
            · intro hp
              subst hp
              rw [hres]
            · intro hp
              subst hp
              dsimp only [resolvePossibleValues]
              unfold Model.case_split_var
              exact (do_case_split_bad_sort m v0 m.inputs
                (m.state.erase v0) .tupleTF hnotbool hbw).1 rfl
            · intro ns hp hne
              subst hp
              dsimp only [resolvePossibleValues]
              unfold Model.case_split_var
              exact (do_case_split_bad_sort m v0 m.inputs
                (m.state.erase v0) (.intList ns) hnotbool hbw).2 ns rfl hne

/-- C7 (witness): the amended theorem at concrete inputs — an unknown name
raises KeyError, a defaulted array-sorted selector raises TypeError, and an
array-sorted selector with the nonempty explicit collection [1] raises. -/
theorem C7_witness :
    mVal.case_split "nope" none = .error (.keyError
      ("cannot case split on " ++ "nope" ++
        ": no such input or state variable")) ∧
    mC7.case_split "arr" none = .error (.typeError
      ("cannot case split on input " ++ "arr" ++
        ": case splits can only be performed on bool/bv variables")) ∧
    exceptIsErr (mC7.case_split "arr" (some (.intList [1]))) = true :=
  ⟨(C7_hard_failures mVal "nope" none).1 rfl,
   ((C7_hard_failures mC7 "arr" none).2 arrVar rfl rfl).1 rfl,
   (((C7_hard_failures mC7 "arr" (some (.intList [1]))).2 arrVar rfl
     rfl).2.2 [1] rfl (by decide))⟩

/-- C10: for a resolvable signal name, get_annotation_at raises IndexError
exactly when the cycle reaches num_cycles; for an in-range cycle it returns
None exactly when the signal's annotation dict is predicate-keyed; and a
signal/cycle that was never annotated (no entry for the cycle, the default
still DONT_CARE, not predicate-keyed) yields DONT_CARE. -/
theorem C10_get_annotation_at (g : Guidance) (s q : String) (c : Nat)
    (hq : g.validate_signame s = .ok q) :
    (isIndexErr (g.get_annotation_at s c) = true ↔ g.num_cycles ≤ c) ∧
    (c < g.num_cycles →
      ((g.get_annotation_at s c = .ok none) ↔
        (g.ownDict q).isPredKeyed = true)) ∧
    (c < g.num_cycles → (g.ownDict q).isPredKeyed = false →
      cycleLookup c (g.ownDict q).entries = none →
      (g.ownDict q).dflt = .DONT_CARE →
      g.get_annotation_at s c = .ok (some .DONT_CARE)) := by
  unfold Guidance.get_annotation_at
  rw [hq]
  dsimp only
  by_cases hc : g.num_cycles ≤ c
  · rw [if_pos hc]
    refine ⟨⟨fun _ => hc, fun _ => rfl⟩, fun hlt => absurd hc (by omega),
      fun hlt => absurd hc (by omega)⟩
  · rw [if_neg hc]
    push_neg at hc
    by_cases hpk : (g.ownDict q).isPredKeyed
    · rw [if_pos hpk]
      exact ⟨⟨fun hix => by simp [isIndexErr] at hix, fun hge => by omega⟩,
        fun _ => ⟨fun _ => hpk, fun _ => rfl⟩,
        fun _ hnp => absurd hpk (by simp [hnp])⟩
    · rw [if_neg hpk]
      refine ⟨⟨fun hix => by simp [isIndexErr] at hix, fun hge => by omega⟩,
        fun _ => ⟨fun hnone => by simp at hnone, fun hpk' => ?_⟩,
        fun _ _ hlk hd => ?_⟩
      · exact absurd hpk' (by simpa using hpk)
      · rw [hlk]
        simp [hd]

/-- C10 (witness): the theorem at the concrete store g10 — the untouched
signal a yields DONT_CARE in range, the predicate-keyed signal b yields
None in range, and an out-of-range cycle on c raises IndexError. -/
theorem C10_witness :
    g10.get_annotation_at "a" 4 = .ok (some .DONT_CARE) ∧
    g10.get_annotation_at "b" 4 = .ok none ∧
    isIndexErr (g10.get_annotation_at "c" 12) = true :=
  ⟨(C10_get_annotation_at g10 "a" "t.a" 4 rfl).2.2 (by decide) rfl rfl rfl,
   ((C10_get_annotation_at g10 "b" "t.b" 4 rfl).2.1 (by decide)).mpr rfl,
   ((C10_get_annotation_at g10 "c" "t.c" 12 rfl).1).mpr (by decide)⟩

end Easyila
